import Mathlib

/-!
Shallow embedding of the `compass` geometry library core
(`src/coordinate.rs`, `src/coordinate/coordinate_sequences.rs`,
`src/geometry.rs`).  Ordinates (Rust `f64`) are modelled as exact
rationals; every concrete input used below is exactly representable
in `f64` and the operations involved incur no rounding there, so the
model and the code agree on those inputs.  A Rust `panic` site is
modelled as `none` of an `Option` result.
-/

/-- Embedding of `Coordinate` from `src/coordinate.rs`: a tagged union of a
2D and a 3D point, ordinates modelled as exact rationals. -/
inductive Coordinate where
  | TwoDim (x y : ℚ)
  | ThreeDim (x y z : ℚ)
deriving DecidableEq, Repr

/-- Embedding of `Coordinate::x`. -/
def Coordinate.x : Coordinate → ℚ
  | .TwoDim x _ => x
  | .ThreeDim x _ _ => x

/-- Embedding of `Coordinate::y`. -/
def Coordinate.y : Coordinate → ℚ
  | .TwoDim _ y => y
  | .ThreeDim _ y _ => y

/-- Embedding of `Coordinate::z`; a `TwoDim` coordinate yields `0`. -/
def Coordinate.z : Coordinate → ℚ
  | .ThreeDim _ _ z => z
  | _ => 0

/-- Embedding of `Coordinate::get_ordinate`; the invalid-index panic is
modelled as `none`. -/
def Coordinate.get_ordinate (c : Coordinate) (ordinate : Nat) : Option ℚ :=
  match ordinate with
  | 0 => some c.x
  | 1 => some c.y
  | 2 => some c.z
  | _ => none

/-- Embedding of `Coordinate::set_x`. -/
def Coordinate.set_x : Coordinate → ℚ → Coordinate
  | .TwoDim _ y, new_x => .TwoDim new_x y
  | .ThreeDim _ y z, new_x => .ThreeDim new_x y z

/-- Embedding of `Coordinate::set_y`. -/
def Coordinate.set_y : Coordinate → ℚ → Coordinate
  | .TwoDim x _, new_y => .TwoDim x new_y
  | .ThreeDim x _ z, new_y => .ThreeDim x new_y z

/-- Embedding of `Coordinate::set_z`: a `TwoDim` coordinate is promoted to
`ThreeDim`. -/
def Coordinate.set_z : Coordinate → ℚ → Coordinate
  | .TwoDim x y, new_z => .ThreeDim x y new_z
  | .ThreeDim x y _, new_z => .ThreeDim x y new_z

/-- Embedding of `Coordinate::set_ordinate`; the invalid-index panic is
modelled as `none`. -/
def Coordinate.set_ordinate (c : Coordinate) (ordinate : Nat) (new_value : ℚ) :
    Option Coordinate :=
  match ordinate with
  | 0 => some (c.set_x new_value)
  | 1 => some (c.set_y new_value)
  | 2 => some (c.set_z new_value)
  | _ => none

/-- Embedding of `Coordinate::equals_2d`: exact equality of x and y. -/
def Coordinate.equals_2d (a b : Coordinate) : Bool :=
  decide (a.x = b.x) && decide (a.y = b.y)

/-- Embedding of `Coordinate::equals_3d`: `equals_2d` plus exact equality
of z (a `TwoDim` coordinate's implicit z of 0 participates).  This is also
the `PartialEq` implementation, hence the structural equality used by the
seen set, `has_duplicates` and `is_closed`. -/
def Coordinate.equals_3d (a b : Coordinate) : Bool :=
  a.equals_2d b && decide (a.z = b.z)

/-- Exact value of `f64::EPSILON`, i.e. `2 ^ (-52)`. -/
def EPSILON : ℚ := 1 / 2 ^ 52

/-- Embedding of `Coordinate::equals_2d_with_tolerance`: the source tests
`(Δ).abs() - tolerance < f64::EPSILON` on each of x and y. -/
def Coordinate.equals_2d_with_tolerance (a b : Coordinate) (tolerance : ℚ) : Bool :=
  decide (|a.x - b.x| - tolerance < EPSILON) &&
  decide (|a.y - b.y| - tolerance < EPSILON)

/-- Embedding of `Coordinate::equals_3d_with_tolerance`. -/
def Coordinate.equals_3d_with_tolerance (a b : Coordinate) (tolerance : ℚ) : Bool :=
  a.equals_2d_with_tolerance b tolerance && decide (|a.z - b.z| - tolerance < EPSILON)

/-- Embedding of `Coordinate::equals_in_z`. -/
def Coordinate.equals_in_z (a b : Coordinate) (tolerance : ℚ) : Bool :=
  decide (|a.z - b.z| - tolerance < EPSILON)

/-- C4 counterexample: with `A = (0,0)`, `B = (2⁻⁵³, 0)` and tolerance `0`,
`equals_2d_with_tolerance` returns `true` although `|A.x − B.x| ≤ 0` fails,
so the claimed characterisation `|Δx| ≤ t ∧ |Δy| ≤ t` is false at this
input. -/
theorem c4_tolerance_claim_counterexample :
    ¬(Coordinate.equals_2d_with_tolerance (.TwoDim 0 0) (.TwoDim (1 / 2 ^ 53) 0) 0 = true ↔
      (|(Coordinate.TwoDim 0 0).x - (Coordinate.TwoDim (1 / 2 ^ 53) 0).x| ≤ 0 ∧
       |(Coordinate.TwoDim 0 0).y - (Coordinate.TwoDim (1 / 2 ^ 53) 0).y| ≤ 0)) := by
  simp only [Coordinate.equals_2d_with_tolerance, Coordinate.x, Coordinate.y,
    Bool.and_eq_true, decide_eq_true_eq, EPSILON, sub_zero, zero_sub, abs_neg,
    sub_self, abs_zero]
  rw [abs_of_nonneg (by norm_num : (0 : ℚ) ≤ 1 / 2 ^ 53)]
  norm_num

/-- C4 (amended): under exact arithmetic `equals_2d_with_tolerance A B t`
holds iff `|Δx| < t + ε` and `|Δy| < t + ε` with `ε = 2⁻⁵²` (`f64::EPSILON`);
`equals_3d_with_tolerance` additionally requires `|Δz| < t + ε`; and
`equals_in_z` holds iff `|Δz| < t + ε`. -/
theorem c4_tolerance_semantics (a b : Coordinate) (t : ℚ) :
    (a.equals_2d_with_tolerance b t = true ↔
      (|a.x - b.x| < t + EPSILON ∧ |a.y - b.y| < t + EPSILON)) ∧
    (a.equals_3d_with_tolerance b t = true ↔
      (|a.x - b.x| < t + EPSILON ∧ |a.y - b.y| < t + EPSILON ∧
       |a.z - b.z| < t + EPSILON)) ∧
    (a.equals_in_z b t = true ↔ |a.z - b.z| < t + EPSILON) := by
  have key : ∀ u : ℚ, u - t < EPSILON ↔ u < t + EPSILON := by
    intro u
    constructor <;> intro h <;> linarith
  refine ⟨?_, ?_, ?_⟩ <;>
    simp [Coordinate.equals_2d_with_tolerance, Coordinate.equals_3d_with_tolerance,
      Coordinate.equals_in_z, key, and_assoc]

/-- Embedding of `CoordinateSequence` from
`src/coordinate/coordinate_sequences.rs`: an ordered, owned list of
coordinates. -/
structure CoordinateSequence where
  coordinates : List Coordinate
deriving DecidableEq, Repr

/-- Embedding of `CoordinateSequence::len`. -/
def CoordinateSequence.len (s : CoordinateSequence) : Nat :=
  s.coordinates.length

/-- Embedding of `CoordinateSequence::get_coordinate` (bounds-checked
`Vec::get`). -/
def CoordinateSequence.get_coordinate (s : CoordinateSequence) (index : Nat) :
    Option Coordinate :=
  s.coordinates[index]?

/-- Embedding of `CoordinateSequence::set_coordinate`: clones the sequence
and overwrites index `index`; the out-of-range indexing panic of
`Vec`'s index assignment is modelled as `none`. -/
def CoordinateSequence.set_coordinate (s : CoordinateSequence) (index : Nat)
    (coordinate : Coordinate) : Option CoordinateSequence :=
  if index < s.coordinates.length then
    some ⟨s.coordinates.set index coordinate⟩
  else
    none

/-- Embedding of `CoordinateSequence::add_coordinate`: clones the sequence
and pushes the coordinate at the end. -/
def CoordinateSequence.add_coordinate (s : CoordinateSequence)
    (coordinate : Coordinate) : CoordinateSequence :=
  ⟨s.coordinates ++ [coordinate]⟩

/-- Embedding of `CoordinateSequence::is_closed`: false below length 2,
else structural (`PartialEq`, i.e. `equals_3d`) comparison of the first and
last coordinates. -/
def CoordinateSequence.is_closed (s : CoordinateSequence) : Bool :=
  if h : s.coordinates.length < 2 then
    false
  else
    Coordinate.equals_3d (s.coordinates.get ⟨0, by omega⟩)
      (s.coordinates.get ⟨s.coordinates.length - 1, by omega⟩)

/-- C5: `is_closed` returns `true` exactly when the sequence has at least
two coordinates and its first and last coordinates are structurally equal
(`equals_3d`, with a `TwoDim` coordinate's implicit z of 0 participating);
in particular it is `false` for sequences of length 0 or 1. -/
theorem c5_is_closed_characterisation (l : List Coordinate) :
    CoordinateSequence.is_closed ⟨l⟩ = true ↔
      (2 ≤ l.length ∧ ∃ a b, l.head? = some a ∧ l.getLast? = some b ∧
        Coordinate.equals_3d a b = true) := by
  match l with
  | [] => simp [CoordinateSequence.is_closed]
  | [a] => simp [CoordinateSequence.is_closed]
  | a :: b :: t =>
    have hne : a :: b :: t ≠ [] := by simp
    have hlen : ¬((a :: b :: t).length < 2) := by simp
    have hget : (a :: b :: t).get ⟨0, by simp⟩ = a := rfl
    have hlast : (a :: b :: t).getLast? = some ((a :: b :: t).getLast hne) :=
      List.getLast?_eq_getLast_of_ne_nil hne
    have hlastget : (a :: b :: t).getLast hne =
        (a :: b :: t).get ⟨(a :: b :: t).length - 1, by simp⟩ := by
      rw [List.getLast_eq_getElem]
      simp [List.get_eq_getElem]
    constructor
    · intro h
      refine ⟨by simp, a, (a :: b :: t).getLast hne, rfl, hlast, ?_⟩
      rw [CoordinateSequence.is_closed, dif_neg hlen] at h
      rw [hlastget]
      exact h
    · rintro ⟨-, a', b', ha', hb', heq⟩
      have ha : a = a' := by simpa using ha'
      have hb : b' = (a :: b :: t).getLast hne := by
        rw [hlast] at hb'
        simpa using hb'.symm
      rw [CoordinateSequence.is_closed, dif_neg hlen]
      rw [← ha, hb, hlastget] at heq
      exact heq

/-- C7: `add_coordinate` and `set_coordinate` are copy-on-write — each
builds a new sequence (the original value, being immutable here, is
untouched); `add_coordinate` appends the coordinate at the end, and
`set_coordinate` at an in-bounds index `i` succeeds, preserves the length
and differs from the original only at index `i`, where it now stores the
given coordinate. -/
theorem c7_copy_on_write (s : CoordinateSequence) (i : Nat) (c : Coordinate) :
    ((s.add_coordinate c).coordinates = s.coordinates ++ [c]) ∧
    (i < s.len → ∃ s', s.set_coordinate i c = some s' ∧
      s'.len = s.len ∧
      s'.get_coordinate i = some c ∧
      ∀ j, j ≠ i → s'.get_coordinate j = s.get_coordinate j) := by
  refine ⟨rfl, fun hi => ?_⟩
  have hi' : i < s.coordinates.length := hi
  refine ⟨⟨s.coordinates.set i c⟩, ?_, ?_, ?_, ?_⟩
  · rw [CoordinateSequence.set_coordinate, if_pos hi']
  · simp [CoordinateSequence.len]
  · simp [CoordinateSequence.get_coordinate, List.getElem?_set_self, hi']
  · intro j hj
    simp [CoordinateSequence.get_coordinate, List.getElem?_set_ne, hj.symm]

/-- C7 witness: a concrete instantiation of `c7_copy_on_write` at the
two-point sequence `[(0,0),(1,1)]`, index 1 and coordinate `(3,3)`. -/
theorem c7_copy_on_write_witness :
    1 < (CoordinateSequence.mk [Coordinate.TwoDim 0 0, Coordinate.TwoDim 1 1]).len ∧
    (∃ s', CoordinateSequence.set_coordinate
        ⟨[Coordinate.TwoDim 0 0, Coordinate.TwoDim 1 1]⟩ 1 (Coordinate.TwoDim 3 3) =
          some s' ∧
      s'.len = (CoordinateSequence.mk [Coordinate.TwoDim 0 0, Coordinate.TwoDim 1 1]).len ∧
      s'.get_coordinate 1 = some (Coordinate.TwoDim 3 3) ∧
      ∀ j, j ≠ 1 → s'.get_coordinate j =
        (CoordinateSequence.mk
          [Coordinate.TwoDim 0 0, Coordinate.TwoDim 1 1]).get_coordinate j) :=
  ⟨by simp [CoordinateSequence.len],
    (c7_copy_on_write ⟨[Coordinate.TwoDim 0 0, Coordinate.TwoDim 1 1]⟩ 1
      (Coordinate.TwoDim 3 3)).2 (by simp [CoordinateSequence.len])⟩

/-- Embedding of the `Geometry` enum from `src/geometry.rs`. -/
inductive Geometry where
  | Point (coordinates : Coordinate)
  | LineString (coordinates : List Coordinate)
  | LinearRing (coordinates : List Coordinate)
  | Polygon (coordinates : List (List Coordinate))
  | MultiPoint (coordinates : List Coordinate)
  | MultiLineString (coordinates : List (List Coordinate))
  | MultiPolygon (coordinates : List (List (List Coordinate)))
  | GeometryCollection (geometries : List Geometry)

/-- Membership in the `seen` hash set of `is_simple_coordinates`, keyed by
the structural (`PartialEq`, i.e. `equals_3d`) coordinate equality. -/
def mem_seen (seen : List Coordinate) (c : Coordinate) : Bool :=
  seen.any fun d => Coordinate.equals_3d d c

/-- Embedding of the `loop` of `is_simple_coordinates` in
`src/geometry.rs`.  `state` is `false` once a duplicate interior
coordinate was found, `initial_state` is `false` once a coordinate equal to
`initial` was consumed; the loop breaks with `false` as soon as a further
coordinate arrives while either flag is down, and at the end of the input
returns `state`. -/
def simple_loop (initial : Coordinate) (seen : List Coordinate)
    (state initial_state : Bool) : List Coordinate → Bool
  | [] => state
  | c :: rest =>
    if !state || !initial_state then
      false
    else if Coordinate.equals_3d initial c then
      simple_loop initial seen state false rest
    else if mem_seen seen c then
      simple_loop initial seen false initial_state rest
    else
      simple_loop initial (c :: seen) state initial_state rest

/-- Embedding of the helper `is_simple_coordinates` of
`Geometry::is_simple`: the `unwrap` of the first iterator element panics on
an empty list, modelled as `none`; otherwise the loop above runs with an
empty seen set and both flags up. -/
def is_simple_coordinates : List Coordinate → Option Bool
  | [] => none
  | initial :: rest => some (simple_loop initial [] true true rest)

/-- Embedding of `Geometry::is_simple`: points are always simple, a
`LineString` is checked by `is_simple_coordinates`, and every other variant
returns `false`. -/
def Geometry.is_simple : Geometry → Option Bool
  | .Point _ => some true
  | .LineString coordinates => is_simple_coordinates coordinates
  | _ => some false

/-- State of the spec's reference scan for simplicity (§4.3): a violation
flag, the closed-ring-exception-consumed flag, and the seen set. -/
structure ScanState where
  violation : Bool
  consumed : Bool
  seen : List Coordinate

/-- Modelled from the spec: one step of the reference scan of §4.3 — if a
violation was already marked the result is fixed; else a coordinate equal
to `first` consumes the closed-ring exception when it is still available;
else a coordinate already in `seen` marks a violation; else the coordinate
is inserted into `seen`. -/
def spec_step (first : Coordinate) (s : ScanState) (c : Coordinate) : ScanState :=
  if s.violation then
    s
  else if Coordinate.equals_3d first c && !s.consumed then
    { s with consumed := true }
  else if mem_seen s.seen c then
    { s with violation := true }
  else
    { s with seen := c :: s.seen }

/-- Modelled from the spec: the reference scan of §4.3 over a coordinate
list — iterate from the second element and declare the line simple iff no
violation was ever marked. -/
def spec_scan (l : List Coordinate) : Bool :=
  match l with
  | [] => true
  | first :: rest => !(rest.foldl (spec_step first) ⟨false, false, []⟩).violation

/-- Amended scan step: like `spec_step`, but a coordinate arriving after
the closed-ring exception has been consumed is itself a violation (the
ring-closing coordinate is only accepted as the final element). -/
def amended_step (first : Coordinate) (s : ScanState) (c : Coordinate) : ScanState :=
  if s.violation || s.consumed then
    { s with violation := true }
  else if Coordinate.equals_3d first c then
    { s with consumed := true }
  else if mem_seen s.seen c then
    { s with violation := true }
  else
    { s with seen := c :: s.seen }

/-- Amended scan: iterate from the second element with `amended_step` and
declare the line simple iff no violation was ever marked. -/
def amended_scan (l : List Coordinate) : Bool :=
  match l with
  | [] => true
  | first :: rest => !(rest.foldl (amended_step first) ⟨false, false, []⟩).violation

/-- C3: a point is always simple; a one-element line string is simple; the
line `[(0,0),(1,1),(2,2)]` is simple; the closed ring `[(0,0),(1,1),(0,0)]`
is simple; `[(0,0),(1,1),(1,1)]` and `[(1,1),(1,1),(0,0)]` are not
simple. -/
theorem c3_simplicity_scenarios :
    (∀ c : Coordinate, Geometry.is_simple (.Point c) = some true) ∧
    (∀ c : Coordinate, Geometry.is_simple (.LineString [c]) = some true) ∧
    Geometry.is_simple (.LineString [.TwoDim 0 0, .TwoDim 1 1, .TwoDim 2 2]) = some true ∧
    Geometry.is_simple (.LineString [.TwoDim 0 0, .TwoDim 1 1, .TwoDim 0 0]) = some true ∧
    Geometry.is_simple (.LineString [.TwoDim 0 0, .TwoDim 1 1, .TwoDim 1 1]) = some false ∧
    Geometry.is_simple (.LineString [.TwoDim 1 1, .TwoDim 1 1, .TwoDim 0 0]) = some false :=
  ⟨fun _ => rfl, fun _ => rfl, by decide, by decide, by decide, by decide⟩

/-- C9: on an empty coordinate list `is_simple` hits the `unwrap` of a
missing first element (modelled as `none`, the panic), and on every
non-empty coordinate list it returns a boolean verdict. -/
theorem c9_empty_panics_nonempty_total :
    Geometry.is_simple (.LineString []) = none ∧
    ∀ (c : Coordinate) (cs : List Coordinate),
      ∃ b, Geometry.is_simple (.LineString (c :: cs)) = some b :=
  ⟨rfl, fun c cs => ⟨simple_loop c [] true true cs, rfl⟩⟩

/-- C10: every geometry variant other than `Point` and `LineString` is
reported not simple, whatever its contents. -/
theorem c10_other_variants_never_simple :
    ∀ (l : List Coordinate) (ll : List (List Coordinate))
      (lll : List (List (List Coordinate))) (gs : List Geometry),
      Geometry.is_simple (.LinearRing l) = some false ∧
      Geometry.is_simple (.Polygon ll) = some false ∧
      Geometry.is_simple (.MultiPoint l) = some false ∧
      Geometry.is_simple (.MultiLineString ll) = some false ∧
      Geometry.is_simple (.MultiPolygon lll) = some false ∧
      Geometry.is_simple (.GeometryCollection gs) = some false :=
  fun _ _ _ _ => ⟨rfl, rfl, rfl, rfl, rfl, rfl⟩

/-- C2 counterexample: the two-element line string `[(1,1),(1,1)]` has
structurally equal first two coordinates, yet `is_simple` returns `true` —
the repeated pair is consumed as the closed-ring exception and the scan
ends before anything can fail. -/
theorem c2_head_duplicate_counterexample :
    Coordinate.equals_3d (.TwoDim 1 1) (.TwoDim 1 1) = true ∧
    Geometry.is_simple (.LineString [.TwoDim 1 1, .TwoDim 1 1]) = some true := by
  decide

/-- C2 (amended): on a line string of length at least 3 whose first two
coordinates are structurally equal, `is_simple` returns `false`; at length
exactly 2 the repeated pair is instead accepted as a degenerate closed
ring. -/
theorem c2_head_duplicate_not_simple (c0 c1 c2 : Coordinate)
    (rest : List Coordinate) (h : Coordinate.equals_3d c0 c1 = true) :
    Geometry.is_simple (.LineString (c0 :: c1 :: c2 :: rest)) = some false := by
  simp only [Geometry.is_simple, is_simple_coordinates, Option.some.injEq]
  rw [simple_loop, if_neg (by simp), if_pos h]
  rw [simple_loop, if_pos (by simp)]

/-- C2 witness: `c2_head_duplicate_not_simple` instantiated at the source's
own test case `[(1,1),(1,1),(0,0)]`. -/
theorem c2_head_duplicate_not_simple_witness :
    Coordinate.equals_3d (.TwoDim 1 1) (.TwoDim 1 1) = true ∧
    Geometry.is_simple (.LineString [.TwoDim 1 1, .TwoDim 1 1, .TwoDim 0 0]) = some false :=
  ⟨by decide, c2_head_duplicate_not_simple (.TwoDim 1 1) (.TwoDim 1 1) (.TwoDim 0 0) []
    (by decide)⟩

/-- Helper for C1: once the violation flag is up, the amended scan keeps it
up for the rest of the input. -/
lemma amended_foldl_violation (first : Coordinate) :
    ∀ (l : List Coordinate) (s : ScanState), s.violation = true →
      (l.foldl (amended_step first) s).violation = true := by
  intro l
  induction l with
  | nil => intro s hs; simpa using hs
  | cons c rest ih =>
    intro s hs
    have hstep : amended_step first s c = { s with violation := true } := by
      rw [amended_step, if_pos (by simp [hs])]
    rw [List.foldl_cons, hstep]
    exact ih _ rfl

/-- Helper for C1: with the duplicate flag already down, the source loop
answers `false` whatever remains. -/
lemma simple_loop_state_false (first : Coordinate) (seen : List Coordinate)
    (istate : Bool) (l : List Coordinate) :
    simple_loop first seen false istate l = false := by
  cases l <;> simp [simple_loop]

/-- Helper for C1: with the closed-ring flag already consumed, the source
loop answers `true` on an empty remainder and `false` otherwise, and so
does the amended scan. -/
lemma simple_loop_consumed (first : Coordinate) (seen seen' : List Coordinate)
    (l : List Coordinate) :
    simple_loop first seen true false l =
      !((l.foldl (amended_step first) ⟨false, true, seen'⟩).violation) := by
  cases l with
  | nil => simp [simple_loop]
  | cons c rest =>
    have hstep : amended_step first ⟨false, true, seen'⟩ c =
        { violation := true, consumed := true, seen := seen' } := by
      rw [amended_step, if_pos (by simp)]
    rw [List.foldl_cons, hstep, amended_foldl_violation first rest _ rfl]
    simp [simple_loop]

/-- Helper for C1: the source loop computes exactly the amended scan,
whatever seen set both start from. -/
lemma simple_loop_eq_amended (first : Coordinate) :
    ∀ (rest seen : List Coordinate),
      simple_loop first seen true true rest =
        !((rest.foldl (amended_step first) ⟨false, false, seen⟩).violation) := by
  intro rest
  induction rest with
  | nil => intro seen; simp [simple_loop]
  | cons c rest ih =>
    intro seen
    by_cases h1 : Coordinate.equals_3d first c = true
    · have hstep : amended_step first ⟨false, false, seen⟩ c =
          { violation := false, consumed := true, seen := seen } := by
        rw [amended_step, if_neg (by simp), if_pos h1]
      rw [List.foldl_cons, hstep, simple_loop, if_neg (by simp), if_pos h1]
      exact simple_loop_consumed first seen seen rest
    · by_cases h2 : mem_seen seen c = true
      · have hstep : amended_step first ⟨false, false, seen⟩ c =
            { violation := true, consumed := false, seen := seen } := by
          rw [amended_step, if_neg (by simp), if_neg (by simp [h1]), if_pos h2]
        rw [List.foldl_cons, hstep, amended_foldl_violation first rest _ rfl]
        rw [simple_loop, if_neg (by simp), if_neg (by simp [h1]), if_pos h2]
        simp [simple_loop_state_false]
      · have hstep : amended_step first ⟨false, false, seen⟩ c =
            { violation := false, consumed := false, seen := c :: seen } := by
          rw [amended_step, if_neg (by simp), if_neg (by simp [h1]), if_neg (by simp [h2])]
        rw [List.foldl_cons, hstep, simple_loop, if_neg (by simp), if_neg (by simp [h1]),
          if_neg (by simp [h2])]
        exact ih (c :: seen)

/-- C1 counterexample: on `[(0,0),(1,1),(0,0),(2,2)]` the code returns
`false` (the coordinate after the consumed closed-ring exception breaks the
loop) while the spec's reference scan returns `true` (it only fails on
seen-set duplicates), so `is_simple` does not return the verdict of the
spec's scan on every non-empty list. -/
theorem c1_reference_scan_counterexample :
    Geometry.is_simple
        (.LineString [.TwoDim 0 0, .TwoDim 1 1, .TwoDim 0 0, .TwoDim 2 2]) =
      some false ∧
    spec_scan [.TwoDim 0 0, .TwoDim 1 1, .TwoDim 0 0, .TwoDim 2 2] = true := by
  decide

/-- C1 (amended): for every non-empty coordinate list, `is_simple` on the
line string returns exactly the verdict of the amended scan, which differs
from the spec's reference scan in one rule: a coordinate arriving after the
closed-ring exception has been consumed is itself a violation, so the
ring-closing return to the first coordinate is only accepted as the very
last element. -/
theorem c1_is_simple_eq_amended_scan (first : Coordinate) (rest : List Coordinate) :
    Geometry.is_simple (.LineString (first :: rest)) =
      some (amended_scan (first :: rest)) := by
  show some (simple_loop first [] true true rest) = some (amended_scan (first :: rest))
  rw [amended_scan, simple_loop_eq_amended first rest []]

/-- Instrumented version of `simple_loop` for C8: alongside the verdict it
returns the number of seen-set operations performed (one membership test
plus insert per counted coordinate) and the final seen set. -/
def simple_loop_cost (initial : Coordinate) (seen : List Coordinate)
    (state initial_state : Bool) : List Coordinate → Bool × Nat × List Coordinate
  | [] => (state, 0, seen)
  | c :: rest =>
    if !state || !initial_state then
      (false, 0, seen)
    else if Coordinate.equals_3d initial c then
      simple_loop_cost initial seen state false rest
    else if mem_seen seen c then
      ((simple_loop_cost initial seen false initial_state rest).1,
       (simple_loop_cost initial seen false initial_state rest).2.1 + 1,
       (simple_loop_cost initial seen false initial_state rest).2.2)
    else
      ((simple_loop_cost initial (c :: seen) state initial_state rest).1,
       (simple_loop_cost initial (c :: seen) state initial_state rest).2.1 + 1,
       (simple_loop_cost initial (c :: seen) state initial_state rest).2.2)

/-- Helper for C8: the instrumented loop computes the same verdict as the
source loop, performs at most one seen-set operation per remaining
coordinate, and grows the seen set by at most one entry per remaining
coordinate. -/
lemma simple_loop_cost_spec :
    ∀ (rest : List Coordinate) (first : Coordinate) (seen : List Coordinate)
      (state istate : Bool),
      (simple_loop_cost first seen state istate rest).1 =
        simple_loop first seen state istate rest ∧
      (simple_loop_cost first seen state istate rest).2.1 ≤ rest.length ∧
      (simple_loop_cost first seen state istate rest).2.2.length ≤
        seen.length + rest.length := by
  intro rest
  induction rest with
  | nil => intro first seen state istate; simp [simple_loop_cost, simple_loop]
  | cons c rest ih =>
    intro first seen state istate
    rw [simple_loop_cost, simple_loop]
    split
    · simp
    · split
      · have h := ih first seen state false
        refine ⟨h.1, ?_, ?_⟩
        · have := h.2.1
          simpa using Nat.le_succ_of_le this
        · have := h.2.2
          simp only [List.length_cons]
          omega
      · split
        · have h := ih first seen false istate
          refine ⟨h.1, ?_, ?_⟩
          · have := h.2.1
            simp only [List.length_cons]
            omega
          · have := h.2.2
            simp only [List.length_cons]
            omega
        · have h := ih first (c :: seen) state istate
          refine ⟨h.1, ?_, ?_⟩
          · have := h.2.1
            simp only [List.length_cons]
            omega
          · have := h.2.2
            simp only [List.length_cons] at this ⊢
            omega

/-- C8: on a line string of `1 + n` coordinates the check is a single
forward pass whose verdict is that of `is_simple`; it performs at most `n`
seen-set operations (one membership test plus insert per visited
coordinate) and the seen set never exceeds `n` entries, i.e. work and
auxiliary memory are linear in the input length. -/
theorem c8_linear_pass (first : Coordinate) (rest : List Coordinate) :
    Geometry.is_simple (.LineString (first :: rest)) =
      some ((simple_loop_cost first [] true true rest).1) ∧
    (simple_loop_cost first [] true true rest).2.1 ≤ rest.length ∧
    (simple_loop_cost first [] true true rest).2.2.length ≤ rest.length := by
  have h := simple_loop_cost_spec rest first [] true true
  exact ⟨by rw [h.1]; rfl, h.2.1, by simpa using h.2.2⟩

/-- C6: for every coordinate, index in `{0,1,2}` and value, `set_ordinate`
followed by `get_ordinate` at the same index yields the value while the
other two ordinates read unchanged; and `set_z` (like `set_ordinate 2`) on
a `TwoDim` coordinate promotes it to `ThreeDim` keeping x and y. -/
theorem c6_ordinate_roundtrip :
    (∀ (c : Coordinate) (i : Nat) (v : ℚ), i < 3 →
      ∃ c', c.set_ordinate i v = some c' ∧ c'.get_ordinate i = some v ∧
        ∀ j, j < 3 → j ≠ i → c'.get_ordinate j = c.get_ordinate j) ∧
    (∀ x y v : ℚ,
      (Coordinate.TwoDim x y).set_z v = Coordinate.ThreeDim x y v ∧
      (Coordinate.TwoDim x y).set_ordinate 2 v = some (Coordinate.ThreeDim x y v)) := by
  refine ⟨?_, fun x y v => ⟨rfl, rfl⟩⟩
  intro c i v h
  interval_cases i <;> cases c <;>
    refine ⟨_, rfl, rfl, ?_⟩ <;>
      (intro j hj hne
       interval_cases j <;>
         simp_all [Coordinate.get_ordinate, Coordinate.set_x, Coordinate.set_y,
           Coordinate.set_z, Coordinate.x, Coordinate.y, Coordinate.z])

/-- C6 witness: `c6_ordinate_roundtrip` instantiated at the `TwoDim`
coordinate `(1,2)`, ordinate index 2 and value 5, exercising the promotion
to `ThreeDim`. -/
theorem c6_ordinate_roundtrip_witness :
    (2 : Nat) < 3 ∧
    ∃ c', (Coordinate.TwoDim 1 2).set_ordinate 2 5 = some c' ∧
      c'.get_ordinate 2 = some 5 ∧
      ∀ j, j < 3 → j ≠ 2 → c'.get_ordinate j = (Coordinate.TwoDim 1 2).get_ordinate j :=
  ⟨by decide, c6_ordinate_roundtrip.1 (Coordinate.TwoDim 1 2) 2 5 (by decide)⟩
